import Mathlib

/-!
Shallow embedding of the fetch-cache-aggregate core of `src/app.py`
(a Flask app serving MGNREGA district statistics).

The embedded pieces are:
* Python falsy-`or` chains over optional string fields (`pyOr`, `getS`);
* the district key extraction and grouping of `build_cache_for_state_year`
  (lines 172-179);
* the freshness rule (line 168, `CACHE_TTL_SECONDS` at line 18) and the
  whole of `build_cache_for_state_year` (lines 159-192) as a pure function
  of the cache state, the clock and the fetched records;
* the pagination loop of `fetch_state_year_all` (lines 86-156), with the
  upstream modelled as a list of responses consumed in order;
* the inline district-registry update of `fetch_state_year_all`
  (lines 118-141);
* the district lookup policy and latest-month summary of `district_page`
  (lines 204-273).

Everything is executable; machine integers are modelled as `Int`/`Nat`
(no overflow is relevant here: Python ints are unbounded).
-/

set_option autoImplicit false

namespace App

/-- ASCII model of Python `str.upper` on one character (the data handled
by the app is ASCII; Python's full-Unicode case mapping is out of scope). -/
def upChar (c : Char) : Char :=
  if 'a' ≤ c ∧ c ≤ 'z' then Char.ofNat (c.toNat - 32) else c

/-- ASCII model of Python `str.lower` on one character. -/
def downChar (c : Char) : Char :=
  if 'A' ≤ c ∧ c ≤ 'Z' then Char.ofNat (c.toNat + 32) else c

/-- The whitespace characters Python `str.strip` removes. -/
def isSpaceChar (c : Char) : Bool :=
  c = ' ' || c = '\t' || c = '\n' || c = '\r' || c = '\x0b' || c = '\x0c'

/-- Python `s.strip()`. -/
def pyStrip (s : String) : String :=
  ⟨((s.data.dropWhile isSpaceChar).reverse.dropWhile isSpaceChar).reverse⟩

/-- Python `s.upper()` (ASCII fragment). -/
def pyUpper (s : String) : String :=
  ⟨s.data.map upChar⟩

/-- Python `s[:3]`. -/
def pyTake3 (s : String) : String :=
  ⟨s.data.take 3⟩

/-- An ASCII cased character, for `str.title` word boundaries. -/
def isAlphaChar (c : Char) : Bool :=
  ('a' ≤ c && c ≤ 'z') || ('A' ≤ c && c ≤ 'Z')

/-- Python `s.title()` over a character list: a character after a cased
character is lowered, any other is uppered. `prevAlpha` says whether the
previous character was cased. -/
def pyTitleAux : List Char → Bool → List Char
  | [], _ => []
  | c :: cs, prevAlpha =>
    (if prevAlpha then downChar c else upChar c) :: pyTitleAux cs (isAlphaChar c)

/-- Python `s.title()` (ASCII fragment). -/
def pyTitle (s : String) : String :=
  ⟨pyTitleAux s.data false⟩

/-- Lexicographic `≤` on character lists by code point: Python string
comparison. -/
def leChars : List Char → List Char → Bool
  | [], _ => true
  | _ :: _, [] => false
  | a :: as, b :: bs => if a = b then leChars as bs else decide (a < b)

/-- Python `a.upper() <= b.upper()`: the comparison behind
`sorted(..., key=lambda x: x.upper())` at line 140. -/
def upperLe (a b : String) : Bool :=
  leChars (pyUpper a).data (pyUpper b).data

/-- Insert into a sorted list, after any element whose key is `≤`:
the stable placement Python's stable sort produces for equal keys. -/
def sortInsert (x : String) : List String → List String
  | [] => [x]
  | y :: ys => if upperLe x y then x :: y :: ys else y :: sortInsert x ys

/-- Line 140: `sorted(sd["districts"], key=lambda x: x.upper())` —
a stable sort by the upper-cased name, modelled as stable insertion sort
(stable sorting under a total preorder has a unique result, so this agrees
with Python's sort). -/
def sortByUpper : List String → List String
  | [] => []
  | x :: xs => sortInsert x (sortByUpper xs)

/-- A raw record from the upstream API: a JSON object, modelled as an
association list from field names to string values (the fields the core
reads are all strings in the upstream data). `rget` is Python `r.get(k)`:
first binding wins, `none` when absent. -/
structure Record where
  fields : List (String × String)
deriving DecidableEq, Repr

/-- Python `r.get(k)`: `none` when the key is absent. -/
def rget (r : Record) (k : String) : Option String :=
  match r.fields.find? (fun p => p.1 = k) with
  | some p => some p.2
  | none => none

/-- Python `r.get(k) or` in a falsy chain collapses `None` and `""`;
`getS` returns the field value with `""` standing for `None`. -/
def getS (r : Record) (k : String) : String :=
  (rget r k).getD ""

/-- Python `a or b` on strings (with `""` also standing for `None`):
`b` when `a` is falsy (empty), else `a`. -/
def pyOr (a b : String) : String :=
  if a = "" then b else a

/-- Line 134 / line 175: `(r.get("district_name") or r.get("district") or "").strip()`. -/
def districtRaw (r : Record) : String :=
  pyStrip (pyOr (getS r "district_name") (getS r "district"))

/-- Lines 175-178: the grouping key, or `none` when the record is dropped
(`if not d: continue`). The key is the trimmed district name upper-cased. -/
def districtKey (r : Record) : Option String :=
  if districtRaw r = "" then none else some (pyUpper (districtRaw r))

/-- One step of the `grouped.setdefault(d_u, []).append(r)` dict build
(line 179): append `r` to the bucket of `k`, creating the bucket at the
end when absent (Python dicts preserve insertion order). -/
def insertRecord (g : List (String × List Record)) (k : String) (r : Record) :
    List (String × List Record) :=
  match g with
  | [] => [(k, [r])]
  | (k0, rs) :: rest =>
    if k0 = k then (k0, rs ++ [r]) :: rest else (k0, rs) :: insertRecord rest k r

/-- The body of the `for r in records` loop at lines 174-179: skip the
record when its key is absent, else append it to its bucket. -/
def groupStep (g : List (String × List Record)) (r : Record) :
    List (String × List Record) :=
  match districtKey r with
  | none => g
  | some k => insertRecord g k r

/-- Lines 173-179: group fetched records by district key, dropping records
with an empty or missing district identifier. -/
def groupRecords (records : List Record) : List (String × List Record) :=
  records.foldl groupStep []

/-- Python `grouped.get(k)` flattened to a list: the bucket of `k`, `[]`
when absent (`None` and `[]` are both falsy at every use site). -/
def lookupGroup (g : List (String × List Record)) (k : String) : List Record :=
  match g with
  | [] => []
  | (k0, rs) :: rest => if k0 = k then rs else lookupGroup rest k

/-- Line 18: `CACHE_TTL_SECONDS = 24 * 3600`. -/
def CACHE_TTL_SECONDS : Int := 24 * 3600

/-- Line 168: `time.time() - fetched_at < CACHE_TTL_SECONDS`. -/
def is_fresh (now fetched_at : Int) : Bool :=
  now - fetched_at < CACHE_TTL_SECONDS

/-- The `_meta` block stored at lines 183-188 (state and fin_year strings
omitted: no claim reads them). -/
structure Meta where
  fetched_at : Int
  total_records : Nat
deriving DecidableEq, Repr

/-- A cache entry for one `(state, fin_year)` key: `_meta` plus the
`by_district` grouping (lines 182-190). -/
structure CacheEntry where
  meta : Meta
  by_district : List (String × List Record)
deriving DecidableEq, Repr

/-- Lines 159-192, `build_cache_for_state_year`, as a pure function of the
existing entry for the key (`none` when `key not in cache`), the clock, and
the records the fetch would return. The Bool reports whether
`fetch_state_year_all` was invoked (an API fetch happened). If the entry
exists and is fresh it is returned unchanged with no fetch; otherwise the
entry is replaced wholesale by a freshly grouped one stamped `now`. -/
def build_cache_for_state_year (cache : Option CacheEntry) (now : Int)
    (fetched : List Record) : CacheEntry × Bool :=
  match cache with
  | some entry =>
    if is_fresh now entry.meta.fetched_at then (entry, false)
    else
      ({ meta := { fetched_at := now, total_records := fetched.length },
         by_district := groupRecords fetched }, true)
  | none =>
    ({ meta := { fetched_at := now, total_records := fetched.length },
       by_district := groupRecords fetched }, true)

/-! ### District registry update (lines 118-141 of `fetch_state_year_all`) -/

/-- One iteration of the `for r in records` loop at lines 132-137: append
the district name when it is non-empty and not already stored (exact string
membership), raising the `changed` flag. -/
def regStep (p : List String × Bool) (r : Record) : List String × Bool :=
  let dname := districtRaw r
  if dname ≠ "" ∧ dname ∉ p.1 then (p.1 ++ [dname], true) else p

/-- Lines 131-140: fold a page of records into a state's stored district
list; when anything was added, re-sort the list by upper-cased name
(`record_seen` of the spec, batched per page as the code does). -/
def record_seen (districts : List String) (records : List Record) : List String :=
  if (records.foldl regStep (districts, false)).2
  then sortByUpper (records.foldl regStep (districts, false)).1
  else (records.foldl regStep (districts, false)).1

/-! ### Pagination loop (lines 86-156 of `fetch_state_year_all`) -/

/-- A parsed page body: `j.get("records", [])`, `int(j.get("count", ...))`,
`int(j.get("total", ...))` (lines 112-114). -/
structure Page where
  records : List Record
  count : Nat
  total : Nat
deriving DecidableEq, Repr

/-- One upstream response to a page request. `transportError` is the
`requests.get` exception caught at lines 101-105; `http status body` is a
reply with that status code, whose `body` is `none` when `resp.json()` (or
the `int(...)` coercions) would raise — a 200 reply that is not valid
JSON. -/
inductive Response where
  | transportError : Response
  | http (status : Nat) (body : Option Page) : Response
deriving DecidableEq, Repr

/-- The `while True` loop of lines 89-154, consuming upstream responses in
order. Returns `Except.error ()` when the Python code would propagate an
exception (unparseable 200 body, line 111), else the accumulated records
and the list of offsets requested (its length is the number of page
requests issued). The loop breaks on transport errors and non-200 statuses
(lines 101-109), when the accumulated count reaches `total` (line 147), or
when a page reports `count == 0` (line 149); otherwise the offset advances
by `count` (line 152). Exhausting the modelled response list ends the run
with what was accumulated. -/
def fetchGo : List Response → List Record → Nat → List Nat →
    Except Unit (List Record × List Nat)
  | [], acc, _, reqs => .ok (acc, reqs)
  | resp :: rest, acc, offset, reqs =>
    let reqs2 := reqs ++ [offset]
    match resp with
    | .transportError => .ok (acc, reqs2)
    | .http status body =>
      if status ≠ 200 then .ok (acc, reqs2)
      else
        match body with
        | none => .error ()
        | some p =>
          let acc2 := acc ++ p.records
          if acc2.length ≥ p.total then .ok (acc2, reqs2)
          else if p.count = 0 then .ok (acc2, reqs2)
          else fetchGo rest acc2 (offset + p.count) reqs2

/-- `fetch_state_year_all`, run against a modelled upstream: the records
it returns plus the offsets it requested. -/
def fetch_state_year_all (responses : List Response) :
    Except Unit (List Record × List Nat) :=
  fetchGo responses [] 0 []

/-! ### Latest-month summary (lines 240-266 of `district_page`) -/

/-- The `month_order` dict at line 249. Unknown tokens map to 0
(line 252, `month_order.get(m, 0)`). -/
def monthOrder : String → Nat
  | "Jan" => 1 | "Feb" => 2 | "Mar" => 3 | "Apr" => 4
  | "May" => 5 | "Jun" => 6 | "Jul" => 7 | "Aug" => 8
  | "Sep" => 9 | "Oct" => 10 | "Nov" => 11 | "Dec" => 12
  | _ => 0

/-- Lines 250-252, `month_idx`: `(rec.get("month") or "").strip()[:3].title()`
looked up in `month_order` with default 0. -/
def month_idx (r : Record) : Nat :=
  monthOrder (pyTitle (pyTake3 (pyStrip (getS r "month"))))

/-- Keep the running best record, replaced only on a strictly larger month
index (so the first maximal record wins, as stability dictates). -/
def bestStep (best c : Record) : Record :=
  if month_idx c > month_idx best then c else best

/-- Line 253: `sorted(found, key=month_idx, reverse=True)[0]` on a
non-empty list — Python's sort is stable also with `reverse=True`, so this
is the first record attaining the maximal month index. -/
def latestRecord : List Record → Option Record
  | [] => none
  | r :: rs => some (rs.foldl bestStep r)

/-- The summary dict built at lines 258-266 (raw field values of one
record, with falsy-`or` fallbacks; line 263 repeats the same key in both
branches of its `or`, reproduced as written). -/
structure Summary where
  month : String
  fin_year : String
  total_households : String
  total_individuals : String
  persondays : String
  wages : String
  avg_days_per_hh : String
deriving DecidableEq, Repr

/-- Lines 258-266 applied to the chosen `latest` record. -/
def mkSummary (latest : Record) : Summary :=
  { month := pyOr (getS latest "month") (getS latest "Month")
    fin_year := getS latest "fin_year"
    total_households :=
      pyOr (getS latest "Total_Households_Worked") (getS latest "Total Households Worked")
    total_individuals :=
      pyOr (getS latest "Total_Individuals_Worked") (getS latest "Total Individuals Worked")
    persondays :=
      pyOr (getS latest "Persondays_of_Central_Liability_so_far")
        (getS latest "Persondays_of_Central_Liability_so_far")
    wages := pyOr (getS latest "Wages") (getS latest "Wages(in lakhs?)")
    avg_days_per_hh := getS latest "Average_days_of_employment_provided_per_Household" }

/-- Lines 240-266: the summary for a district's record list (`none` when
no records were found — `summary = None`). -/
def districtSummary (found : List Record) : Option Summary :=
  (latestRecord found).map mkSummary

/-! ### District lookup policy (lines 204-238 of `district_page`) -/

/-- Python `needle in hay` on strings (substring containment). -/
def charsPrefixOf : List Char → List Char → Bool
  | [], _ => true
  | _ :: _, [] => false
  | a :: as, b :: bs => a = b && charsPrefixOf as bs

/-- Substring search behind Python `in`, walking the haystack. -/
def charsContains : List Char → List Char → Bool
  | [], needle => needle.isEmpty
  | hay@(_ :: t), needle => charsPrefixOf needle hay || charsContains t needle

/-- Python `needle in hay` for strings. -/
def strContains (hay needle : String) : Bool :=
  charsContains hay.data needle.data

/-- Lines 235-238: the records of the first `by_district` key containing
the upper-cased user string as a substring, in dict (insertion) order;
`[]` when none matches (`found` stays falsy). -/
def fuzzyFind (g : List (String × List Record)) (needle : String) : List Record :=
  match g with
  | [] => []
  | (k, rs) :: rest => if strContains k needle then rs else fuzzyFind rest needle

/-- Lines 204-238 of `district_page`, as a pure function of the cache
entry for the `(state, fin_year)` key (`none` when absent), the clock, the
records any fetch would currently return, and the user's district string.
Returns the records served (`[]` when nothing matched) and the number of
times `fetch_state_year_all` was invoked. Steps: ensure the cache entry
exists (lines 216-219), exact match on the upper-cased trimmed district
(line 225), and if not found call `build_cache_for_state_year` again
(line 230) — which itself re-checks freshness — then retry exact match and
fall back to substring matching (lines 232-238). -/
def district_page_lookup (cache : Option CacheEntry) (now : Int)
    (fetched : List Record) (district : String) : List Record × Nat :=
  let step0 : CacheEntry × Nat :=
    match cache with
    | none =>
      let b := build_cache_for_state_year none now fetched
      (b.1, 1)
    | some e => (e, 0)
  let dU := pyUpper (pyStrip district)
  let found := lookupGroup step0.1.by_district dU
  if found ≠ [] then (found, step0.2)
  else
    let b := build_cache_for_state_year (some step0.1) now fetched
    let n := step0.2 + (if b.2 then 1 else 0)
    let found1 := lookupGroup b.1.by_district dU
    if found1 ≠ [] then (found1, n)
    else (fuzzyFind b.1.by_district dU, n)

/-! ### Concrete inputs used by witnesses and counterexamples -/

/-- A record with no fields (pagination counting does not look inside). -/
def dummyRec : Record := ⟨[]⟩

/-- The two-record January sample of the monthly-averaging test case. -/
def c1sample : List Record :=
  [⟨[("month", "Jan"), ("Wages", "10")]⟩, ⟨[("month", "Jan"), ("Wages", "20")]⟩]

/-- Records for Mar, Jan, Feb in fetch order (calendar-ordering sample). -/
def c2sample : List Record :=
  [⟨[("month", "Mar"), ("Wages", "3")]⟩,
   ⟨[("month", "Jan"), ("Wages", "1")]⟩,
   ⟨[("month", "Feb"), ("Wages", "2")]⟩]

/-- A record of district PURI. -/
def puriRec : Record := ⟨[("district_name", "PURI"), ("month", "Jan")]⟩

/-- A record of district CUTTACK. -/
def cuttackRec : Record := ⟨[("district_name", "CUTTACK"), ("month", "Jan")]⟩

/-- A fresh-looking cache entry (fetched_at 1000) that only knows
CUTTACK. -/
def c3entry : CacheEntry :=
  { meta := { fetched_at := 1000, total_records := 1 },
    by_district := [("CUTTACK", [cuttackRec])] }

/-- Two same-district records distinguishable by a payload field. -/
def recA1 : Record := ⟨[("district_name", "A"), ("x", "1")]⟩

/-- Second record of district A. -/
def recA2 : Record := ⟨[("district_name", "A"), ("x", "2")]⟩

/-! ## Helper lemmas -/

theorem lookupGroup_insertRecord_self (g : List (String × List Record))
    (k : String) (r : Record) :
    lookupGroup (insertRecord g k r) k = lookupGroup g k ++ [r] := by
  induction g with
  | nil => simp [insertRecord, lookupGroup]
  | cons p rest ih =>
    obtain ⟨k0, rs⟩ := p
    by_cases hk : k0 = k
    · subst hk
      simp [insertRecord, lookupGroup]
    · simp [insertRecord, lookupGroup, hk, ih]

theorem lookupGroup_insertRecord_ne (g : List (String × List Record))
    (k k2 : String) (r : Record) (h : k2 ≠ k) :
    lookupGroup (insertRecord g k r) k2 = lookupGroup g k2 := by
  have h2 : k ≠ k2 := fun he => h he.symm
  induction g with
  | nil => simp [insertRecord, lookupGroup, h2]
  | cons p rest ih =>
    obtain ⟨k0, rs⟩ := p
    by_cases hk : k0 = k
    · subst hk
      simp [insertRecord, lookupGroup, h2]
    · by_cases hk2 : k0 = k2
      · simp [insertRecord, lookupGroup, hk, hk2, h]
      · simp [insertRecord, lookupGroup, hk, hk2, ih]

theorem lookupGroup_foldl (l : List Record) :
    ∀ (g : List (String × List Record)) (k : String),
      lookupGroup (l.foldl groupStep g) k
        = lookupGroup g k ++ l.filter (fun r => decide (districtKey r = some k)) := by
  induction l with
  | nil => simp
  | cons r t ih =>
    intro g k
    simp only [List.foldl_cons, List.filter_cons]
    cases hdk : districtKey r with
    | none =>
      have hstep : groupStep g r = g := by simp [groupStep, hdk]
      rw [hstep, ih]
      simp
    | some k2 =>
      have hstep : groupStep g r = insertRecord g k2 r := by simp [groupStep, hdk]
      by_cases hk : k2 = k
      · subst hk
        rw [hstep, ih, lookupGroup_insertRecord_self]
        simp
      · rw [hstep, ih, lookupGroup_insertRecord_ne g k2 k r (fun he => hk he.symm)]
        simp [hk]

theorem lookupGroup_groupRecords (l : List Record) (k : String) :
    lookupGroup (groupRecords l) k
      = l.filter (fun r => decide (districtKey r = some k)) := by
  have := lookupGroup_foldl l [] k
  simpa [groupRecords, lookupGroup] using this

theorem mem_keys_of_lookup_ne (g : List (String × List Record)) (k : String)
    (h : lookupGroup g k ≠ []) : k ∈ g.map Prod.fst := by
  induction g with
  | nil => simp [lookupGroup] at h
  | cons p rest ih =>
    obtain ⟨k0, rs⟩ := p
    by_cases hk : k0 = k
    · simp [hk]
    · simp only [lookupGroup, if_neg hk] at h
      simp [ih h]

theorem lookup_ne_of_mem_keys (g : List (String × List Record)) (k : String)
    (hne : ∀ p ∈ g, p.2 ≠ ([] : List Record)) (h : k ∈ g.map Prod.fst) :
    lookupGroup g k ≠ [] := by
  induction g with
  | nil => simp at h
  | cons p rest ih =>
    obtain ⟨k0, rs⟩ := p
    by_cases hk : k0 = k
    · subst hk
      simpa [lookupGroup] using hne (k0, rs) (by simp)
    · simp only [List.map_cons, List.mem_cons] at h
      rcases h with h | h
      · exact absurd h.symm hk
      · simp only [lookupGroup, if_neg hk]
        exact ih (fun p hp => hne p (List.mem_cons_of_mem _ hp)) h

theorem insertRecord_buckets_ne (g : List (String × List Record)) (k : String)
    (r : Record) (h : ∀ p ∈ g, p.2 ≠ ([] : List Record)) :
    ∀ p ∈ insertRecord g k r, p.2 ≠ ([] : List Record) := by
  induction g with
  | nil =>
    intro p hp
    simp only [insertRecord, List.mem_singleton] at hp
    subst hp
    simp
  | cons q rest ih =>
    obtain ⟨k0, rs⟩ := q
    intro p hp
    by_cases hk : k0 = k
    · simp only [insertRecord, if_pos hk, List.mem_cons] at hp
      rcases hp with hp | hp
      · subst hp; simp
      · exact h p (List.mem_cons_of_mem _ hp)
    · simp only [insertRecord, if_neg hk, List.mem_cons] at hp
      rcases hp with hp | hp
      · subst hp
        exact h (k0, rs) (by simp)
      · exact ih (fun q hq => h q (List.mem_cons_of_mem _ hq)) p hp

theorem groupRecords_buckets_ne (l : List Record) :
    ∀ p ∈ groupRecords l, p.2 ≠ ([] : List Record) := by
  have main : ∀ (l : List Record) (g : List (String × List Record)),
      (∀ p ∈ g, p.2 ≠ ([] : List Record)) →
      ∀ p ∈ l.foldl groupStep g, p.2 ≠ ([] : List Record) := by
    intro l
    induction l with
    | nil => intro g hg; simpa using hg
    | cons r t ih =>
      intro g hg
      simp only [List.foldl_cons]
      apply ih
      cases hdk : districtKey r with
      | none => simpa [groupStep, hdk] using hg
      | some k =>
        simp only [groupStep, hdk]
        exact insertRecord_buckets_ne g k r hg
  exact main l [] (by simp)

theorem mem_lookupGroup_groupRecords (l : List Record) (k : String) (r : Record) :
    r ∈ lookupGroup (groupRecords l) k ↔ r ∈ l ∧ districtKey r = some k := by
  rw [lookupGroup_groupRecords]
  simp [List.mem_filter]

theorem foldl_bestStep_mem (rs : List Record) :
    ∀ b : Record, rs.foldl bestStep b = b ∨ rs.foldl bestStep b ∈ rs := by
  induction rs with
  | nil => intro b; simp
  | cons c t ih =>
    intro b
    simp only [List.foldl_cons, List.mem_cons]
    rcases ih (bestStep b c) with h | h
    · rw [h]
      unfold bestStep
      split
      · exact Or.inr (Or.inl rfl)
      · exact Or.inl rfl
    · exact Or.inr (Or.inr h)

theorem le_foldl_bestStep_init (rs : List Record) :
    ∀ b : Record, month_idx b ≤ month_idx (rs.foldl bestStep b) := by
  induction rs with
  | nil => intro b; simp
  | cons c t ih =>
    intro b
    simp only [List.foldl_cons]
    refine le_trans ?_ (ih (bestStep b c))
    unfold bestStep
    split
    · omega
    · exact le_refl _

theorem le_foldl_bestStep_mem (rs : List Record) :
    ∀ (b x : Record), x ∈ rs → month_idx x ≤ month_idx (rs.foldl bestStep b) := by
  induction rs with
  | nil => intro b x hx; simp at hx
  | cons c t ih =>
    intro b x hx
    simp only [List.foldl_cons]
    rcases List.mem_cons.mp hx with hx | hx
    · subst hx
      refine le_trans ?_ (le_foldl_bestStep_init t (bestStep b x))
      unfold bestStep
      split
      · exact le_refl _
      · omega
    · exact ih (bestStep b c) x hx

theorem latestRecord_spec (found : List Record) (h : found ≠ []) :
    ∃ r, latestRecord found = some r ∧ r ∈ found ∧
      ∀ x ∈ found, month_idx x ≤ month_idx r := by
  cases found with
  | nil => exact absurd rfl h
  | cons b rs =>
    refine ⟨rs.foldl bestStep b, rfl, ?_, ?_⟩
    · rcases foldl_bestStep_mem rs b with he | he
      · rw [he]; exact List.mem_cons_self b rs
      · exact List.mem_cons_of_mem b he
    · intro x hx
      rcases List.mem_cons.mp hx with hx | hx
      · subst hx; exact le_foldl_bestStep_init rs x
      · exact le_foldl_bestStep_mem rs b x hx

theorem sortInsert_perm (x : String) (l : List String) :
    (sortInsert x l).Perm (x :: l) := by
  induction l with
  | nil => simp [sortInsert]
  | cons y ys ih =>
    unfold sortInsert
    split
    · exact List.Perm.refl _
    · exact ((ih.cons y).trans (List.Perm.swap x y ys))

theorem sortByUpper_perm (l : List String) : (sortByUpper l).Perm l := by
  induction l with
  | nil => simp [sortByUpper]
  | cons x xs ih =>
    exact (sortInsert_perm x (sortByUpper xs)).trans (ih.cons x)

theorem foldl_regStep_mem (records : List Record) :
    ∀ (p : List String × Bool) (d : String), d ∈ p.1 →
      d ∈ (records.foldl regStep p).1 := by
  induction records with
  | nil => intro p d hd; simpa using hd
  | cons r t ih =>
    intro p d hd
    simp only [List.foldl_cons]
    apply ih
    unfold regStep
    simp only []
    by_cases hc : districtRaw r ≠ "" ∧ districtRaw r ∉ p.1
    · rw [if_pos hc]
      simpa using Or.inl hd
    · rw [if_neg hc]
      exact hd

theorem foldl_regStep_noop (records : List Record) :
    ∀ (ds : List String) (ch : Bool), (∀ r ∈ records, districtRaw r ∈ ds) →
      records.foldl regStep (ds, ch) = (ds, ch) := by
  induction records with
  | nil => intro ds ch _; simp
  | cons r t ih =>
    intro ds ch h
    have hr : districtRaw r ∈ ds := h r (List.mem_cons_self r t)
    have hstep : regStep (ds, ch) r = (ds, ch) := by
      unfold regStep
      rw [if_neg]
      intro hc
      exact absurd hr hc.2
    simp only [List.foldl_cons, hstep]
    exact ih ds ch (fun x hx => h x (List.mem_cons_of_mem r hx))

theorem fetchGo_ok (rs : List Response) :
    ∀ (acc : List Record) (offset : Nat) (reqs : List Nat),
      (∀ r ∈ rs, r ≠ Response.http 200 none) →
      ∃ out, fetchGo rs acc offset reqs = Except.ok out := by
  induction rs with
  | nil => exact fun acc offset reqs _ => ⟨(acc, reqs), rfl⟩
  | cons r rest ih =>
    intro acc offset reqs h
    have hr : r ≠ Response.http 200 none := h r (List.mem_cons_self r rest)
    have hrest : ∀ x ∈ rest, x ≠ Response.http 200 none :=
      fun x hx => h x (List.mem_cons_of_mem r hx)
    cases r with
    | transportError => exact ⟨(acc, reqs ++ [offset]), rfl⟩
    | http status body =>
      by_cases hs : status = 200
      · subst hs
        cases body with
        | none => exact absurd rfl hr
        | some p =>
          simp only [fetchGo, ne_eq, not_true_eq_false, if_false, reduceIte]
          by_cases h1 : (acc ++ p.records).length ≥ p.total
          · exact ⟨_, by rw [if_pos h1]⟩
          · rw [if_neg h1]
            by_cases h2 : p.count = 0
            · exact ⟨_, by rw [if_pos h2]⟩
            · rw [if_neg h2]
              exact ih _ _ _ hrest
      · refine ⟨(acc, reqs ++ [offset]), ?_⟩
        simp only [fetchGo]
        rw [if_pos hs]

theorem fetchGo_cons_done (recs : List Record) (cnt tot : Nat) (rest : List Response)
    (acc : List Record) (offset : Nat) (reqs : List Nat)
    (h1 : (acc ++ recs).length ≥ tot) :
    fetchGo (Response.http 200 (some ⟨recs, cnt, tot⟩) :: rest) acc offset reqs
      = Except.ok (acc ++ recs, reqs ++ [offset]) := by
  simp only [fetchGo, ne_eq, not_true_eq_false, if_false, reduceIte]
  rw [if_pos h1]

theorem fetchGo_cons_cont (recs : List Record) (cnt tot : Nat) (rest : List Response)
    (acc : List Record) (offset : Nat) (reqs : List Nat)
    (h1 : ¬ (acc ++ recs).length ≥ tot) (h2 : ¬ cnt = 0) :
    fetchGo (Response.http 200 (some ⟨recs, cnt, tot⟩) :: rest) acc offset reqs
      = fetchGo rest (acc ++ recs) (offset + cnt) (reqs ++ [offset]) := by
  simp only [fetchGo, ne_eq, not_true_eq_false, if_false, reduceIte]
  rw [if_neg h1, if_neg h2]

/-! ## Claim theorems -/

/-- Claim C1, counterexample: for the district records
`[{month:"Jan", Wages:"10"}, {month:"Jan", Wages:"20"}]` the produced
summary does not report the mean `15.0` for Wages — it reports the raw
string `"10"` of the first latest-month record; no averaging happens. -/
theorem C1_counterexample :
    (districtSummary c1sample).map Summary.wages = some "10"
    ∧ (districtSummary c1sample).map Summary.wages ≠ some "15.0"
    ∧ (districtSummary c1sample).map Summary.wages ≠ some "15.00" := by
  decide

/-- Claim C1, amended: the summary for a non-empty district record list
reports, for each field of interest, the raw stored value of a single
selected record — the first record with maximal parsed month index — with
no parsing, averaging or rounding of numeric fields; in particular, for
the sample input the Wages output is the string "10". -/
theorem C1_amended_summary_from_latest_record :
    (∀ found : List Record, found ≠ [] →
      ∃ r, r ∈ found ∧ (∀ x ∈ found, month_idx x ≤ month_idx r)
        ∧ districtSummary found = some (mkSummary r)
        ∧ (mkSummary r).wages = pyOr (getS r "Wages") (getS r "Wages(in lakhs?)"))
    ∧ (districtSummary c1sample).map Summary.wages = some "10" := by
  constructor
  · intro found h
    obtain ⟨r, hlat, hmem, hmax⟩ := latestRecord_spec found h
    exact ⟨r, hmem, hmax, by simp [districtSummary, hlat], rfl⟩
  · decide

/-- Claim C1, witness: the amended statement applied to the concrete
two-record January sample. -/
theorem C1_amended_summary_from_latest_record_witness :
    ∃ r, r ∈ c1sample ∧ (∀ x ∈ c1sample, month_idx x ≤ month_idx r)
      ∧ districtSummary c1sample = some (mkSummary r)
      ∧ (mkSummary r).wages = pyOr (getS r "Wages") (getS r "Wages(in lakhs?)") :=
  C1_amended_summary_from_latest_record.1 c1sample (by decide)

/-- Claim C2 (confirmed): for every non-empty district record list, the
record selected for the headline summary attains the maximal month index
(month token normalized by strip, first 3 characters, title case; Jan=1 …
Dec=12, unknown 0) among all input records, whatever order the records
are stored in, and the summary is built from that record. -/
theorem C2_headline_latest_calendar_month :
    ∀ found : List Record, found ≠ [] →
      ∃ r, latestRecord found = some r ∧ r ∈ found
        ∧ (∀ x ∈ found, month_idx x ≤ month_idx r)
        ∧ districtSummary found = some (mkSummary r) := by
  intro found h
  obtain ⟨r, hlat, hmem, hmax⟩ := latestRecord_spec found h
  exact ⟨r, hlat, hmem, hmax, by simp [districtSummary, hlat]⟩

/-- Claim C2, witness: the Mar/Jan/Feb sample, stored out of calendar
order, yields a headline record and it is maximal. -/
theorem C2_headline_latest_calendar_month_witness :
    ∃ r, latestRecord c2sample = some r ∧ r ∈ c2sample
      ∧ (∀ x ∈ c2sample, month_idx x ≤ month_idx r)
      ∧ districtSummary c2sample = some (mkSummary r) :=
  C2_headline_latest_calendar_month c2sample (by decide)

/-- Claim C3 (code bug): with a fresh cache entry that lacks the queried
district (here "Puri" against an entry knowing only CUTTACK), the
lookup's "fetch fresh" retry calls `build_cache_for_state_year`, which
returns the cached entry unchanged because it is fresh — zero fetches are
issued even though the upstream now has PURI records, and the lookup
returns empty. The spec (and the code's own `# fetch fresh` comment at
line 229) say the rebuild should ignore freshness and refetch. -/
theorem C3_fresh_entry_lookup_miss_no_refetch :
    is_fresh 1000 c3entry.meta.fetched_at = true
    ∧ lookupGroup c3entry.by_district (pyUpper (pyStrip "Puri")) = []
    ∧ build_cache_for_state_year (some c3entry) 1000 [puriRec] = (c3entry, false)
    ∧ district_page_lookup (some c3entry) 1000 [puriRec] "Puri" = ([], 0) := by
  decide

/-- Claim C4, counterexample: a 200 response whose body is not parseable
JSON makes `fetch_state_year_all` propagate an exception (`resp.json()` at
line 111 is outside the try block), refuting "never raises for any
response content". -/
theorem C4_counterexample :
    fetch_state_year_all [Response.http 200 none] = Except.error () := rfl

/-- Claim C4, amended: the fetch never raises on transport errors or
non-success HTTP statuses — any response sequence free of unparseable 200
bodies yields a normal return — and on failure it returns the records
accumulated so far (illustrated by a page followed by a transport
error). A 200 response whose body fails to parse is the one case that
still propagates an exception. -/
theorem C4_amended_no_raise_on_transport_or_status :
    (∀ rs : List Response, (∀ r ∈ rs, r ≠ Response.http 200 none) →
      ∃ out, fetch_state_year_all rs = Except.ok out)
    ∧ fetch_state_year_all
        [Response.http 200 (some ⟨[dummyRec], 1, 5⟩), Response.transportError]
      = Except.ok ([dummyRec], [0, 1]) := by
  constructor
  · intro rs h
    exact fetchGo_ok rs [] 0 [] h
  · rfl

/-- Claim C4, witness: the amended statement applied to a one-response
upstream that fails with a transport error. -/
theorem C4_amended_no_raise_on_transport_or_status_witness :
    ∃ out, fetch_state_year_all [Response.transportError] = Except.ok out :=
  C4_amended_no_raise_on_transport_or_status.1 [Response.transportError] (by decide)

/-- Claim C5 (confirmed): an entry is fresh iff
`now - fetched_at < CACHE_TTL_SECONDS` with the TTL fixed at 24 hours;
an entry fetched at `now - TTL + 1` is fresh and triggers no fetch, one
fetched at `now - TTL - 1` is stale and triggers a refetch. -/
theorem C5_freshness_boundary :
    ∀ (now : Int) (e : CacheEntry) (fetched : List Record),
      (is_fresh now e.meta.fetched_at = true ↔
        now - e.meta.fetched_at < CACHE_TTL_SECONDS)
      ∧ CACHE_TTL_SECONDS = 24 * 3600
      ∧ (e.meta.fetched_at = now - CACHE_TTL_SECONDS + 1 →
          is_fresh now e.meta.fetched_at = true
          ∧ build_cache_for_state_year (some e) now fetched = (e, false))
      ∧ (e.meta.fetched_at = now - CACHE_TTL_SECONDS - 1 →
          is_fresh now e.meta.fetched_at = false
          ∧ (build_cache_for_state_year (some e) now fetched).2 = true) := by
  intro now e fetched
  refine ⟨by simp [is_fresh], rfl, ?_, ?_⟩
  · intro h
    have hf : is_fresh now e.meta.fetched_at = true := by
      rw [h]
      simp only [is_fresh, CACHE_TTL_SECONDS, decide_eq_true_eq]
      omega
    exact ⟨hf, by simp [build_cache_for_state_year, hf]⟩
  · intro h
    have hs : is_fresh now e.meta.fetched_at = false := by
      rw [h]
      simp only [is_fresh, CACHE_TTL_SECONDS, decide_eq_false_iff_not]
      omega
    exact ⟨hs, by simp [build_cache_for_state_year, hs]⟩

/-- Claim C5, witness: the boundary cases at `now = 86400` — an entry
fetched at 1 is fresh and returned without a fetch, one fetched at -1 is
stale and refetched. -/
theorem C5_freshness_boundary_witness :
    (is_fresh 86400 1 = true
      ∧ build_cache_for_state_year
          (some { meta := { fetched_at := 1, total_records := 0 }, by_district := [] })
          86400 []
        = ({ meta := { fetched_at := 1, total_records := 0 }, by_district := [] }, false))
    ∧ (is_fresh 86400 (-1) = false
      ∧ (build_cache_for_state_year
          (some { meta := { fetched_at := -1, total_records := 0 }, by_district := [] })
          86400 []).2 = true) :=
  ⟨(C5_freshness_boundary 86400
      { meta := { fetched_at := 1, total_records := 0 }, by_district := [] } []).2.2.1
    (by decide),
   (C5_freshness_boundary 86400
      { meta := { fetched_at := -1, total_records := 0 }, by_district := [] } []).2.2.2
    (by decide)⟩

/-- Claim C6 (confirmed): an upstream reporting `total = 2500` serving
pages of 999, 999 and 502 records makes the client issue exactly 3 page
requests at offsets 0, 999, 1998 and accumulate exactly 2500 records
(further available pages are never requested); an upstream reporting
`total = 0` with an empty first page gets exactly 1 request and yields an
empty sequence. -/
theorem C6_pagination_termination :
    (∀ (r1 r2 r3 : List Record) (extra : List Response),
      r1.length = 999 → r2.length = 999 → r3.length = 502 →
      (fetch_state_year_all
          (Response.http 200 (some ⟨r1, 999, 2500⟩) ::
           Response.http 200 (some ⟨r2, 999, 2500⟩) ::
           Response.http 200 (some ⟨r3, 502, 2500⟩) :: extra)).map
        (fun p => (p.1.length, p.2)) = Except.ok (2500, [0, 999, 1998]))
    ∧ (∀ extra : List Response,
      (fetch_state_year_all (Response.http 200 (some ⟨[], 0, 0⟩) :: extra)).map
        (fun p => (p.1.length, p.2)) = Except.ok (0, [0])) := by
  constructor
  · intro r1 r2 r3 extra h1 h2 h3
    show (fetchGo _ [] 0 []).map _ = _
    rw [fetchGo_cons_cont r1 999 2500 _ [] 0 []
        (by simp only [List.nil_append]; omega) (by decide)]
    rw [fetchGo_cons_cont r2 999 2500 _ _ _ _
        (by simp only [List.nil_append, List.length_append]; omega) (by decide)]
    rw [fetchGo_cons_done r3 502 2500 _ _ _ _
        (by simp only [List.nil_append, List.length_append]; omega)]
    simp only [Except.map, List.nil_append, List.length_append, h1, h2, h3]
    norm_num
  · intro extra
    show (fetchGo _ [] 0 []).map _ = _
    rw [fetchGo_cons_done [] 0 0 _ [] 0 [] (by simp)]
    rfl

/-- Claim C6, witness: the pagination statement at concrete page contents
(999, 999 and 502 copies of an empty record, with a fourth page
available), and the zero-total case with no further pages. -/
theorem C6_pagination_termination_witness :
    (fetch_state_year_all
        (Response.http 200 (some ⟨List.replicate 999 dummyRec, 999, 2500⟩) ::
         Response.http 200 (some ⟨List.replicate 999 dummyRec, 999, 2500⟩) ::
         Response.http 200 (some ⟨List.replicate 502 dummyRec, 502, 2500⟩) ::
         [Response.http 200 (some ⟨List.replicate 999 dummyRec, 999, 2500⟩)])).map
      (fun p => (p.1.length, p.2)) = Except.ok (2500, [0, 999, 1998])
    ∧ (fetch_state_year_all [Response.http 200 (some ⟨[], 0, 0⟩)]).map
        (fun p => (p.1.length, p.2)) = Except.ok (0, [0]) :=
  ⟨C6_pagination_termination.1 _ _ _ _ (List.length_replicate 999 dummyRec)
      (List.length_replicate 999 dummyRec) (List.length_replicate 502 dummyRec),
   C6_pagination_termination.2 _⟩

/-- Claim C7 (confirmed): a record lands in bucket `k` of the grouping
exactly when it occurs in the input, its district identifier (primary
field, falling back to the secondary) is non-empty after trimming, and
`k` is that trimmed name upper-cased; records with an empty or missing
identifier appear under no key, and grouping never fails. -/
theorem C7_grouping_key_and_silent_drop :
    ∀ (records : List Record) (k : String) (r : Record),
      r ∈ lookupGroup (groupRecords records) k
        ↔ r ∈ records ∧ districtRaw r ≠ "" ∧ k = pyUpper (districtRaw r) := by
  intro records k r
  rw [mem_lookupGroup_groupRecords]
  constructor
  · rintro ⟨hmem, hkey⟩
    unfold districtKey at hkey
    by_cases hd : districtRaw r = ""
    · rw [if_pos hd] at hkey
      exact absurd hkey (by simp)
    · rw [if_neg hd] at hkey
      exact ⟨hmem, hd, (Option.some_injective _ hkey).symm⟩
  · rintro ⟨hmem, hd, hk⟩
    refine ⟨hmem, ?_⟩
    unfold districtKey
    rw [if_neg hd, hk]

/-- Claim C7, witness: a PURI record is found under key "PURI" after
grouping a list that also contains a district-less record. -/
theorem C7_grouping_key_and_silent_drop_witness :
    puriRec ∈ lookupGroup (groupRecords [puriRec, Record.mk [("month", "Feb")]]) "PURI" :=
  (C7_grouping_key_and_silent_drop
      [puriRec, Record.mk [("month", "Feb")]] "PURI" puriRec).mpr (by decide)

/-- Claim C8, counterexample: grouping is not invariant under permutation
of the input as the claim states — two records of the same district in
swapped order produce different per-district sequences (the bucket keeps
input order). -/
theorem C8_counterexample :
    List.Perm [recA1, recA2] [recA2, recA1]
    ∧ groupRecords [recA1, recA2] ≠ groupRecords [recA2, recA1] := by
  decide

/-- Claim C8, amended: grouping a permutation of a record set yields the
same key set and, per key, a permutation of the same records; the
per-district sequences themselves follow input order, so only their
multisets (not the sequences) are order-independent. -/
theorem C8_amended_grouping_perm_invariant :
    ∀ (l1 l2 : List Record), l1.Perm l2 → ∀ k : String,
      (lookupGroup (groupRecords l1) k).Perm (lookupGroup (groupRecords l2) k)
      ∧ (k ∈ (groupRecords l1).map Prod.fst ↔ k ∈ (groupRecords l2).map Prod.fst) := by
  intro l1 l2 hp k
  have hperm : (lookupGroup (groupRecords l1) k).Perm (lookupGroup (groupRecords l2) k) := by
    rw [lookupGroup_groupRecords, lookupGroup_groupRecords]
    exact hp.filter _
  refine ⟨hperm, ?_, ?_⟩
  · intro hk
    have h1 := lookup_ne_of_mem_keys _ _ (groupRecords_buckets_ne l1) hk
    apply mem_keys_of_lookup_ne
    intro h2
    rw [h2] at hperm
    exact h1 hperm.eq_nil
  · intro hk
    have h2 := lookup_ne_of_mem_keys _ _ (groupRecords_buckets_ne l2) hk
    apply mem_keys_of_lookup_ne
    intro h1
    rw [h1] at hperm
    exact h2 hperm.symm.eq_nil

/-- Claim C8, witness: the amended statement applied to the two-record
swap. -/
theorem C8_amended_grouping_perm_invariant_witness :
    (lookupGroup (groupRecords [recA1, recA2]) "A").Perm
        (lookupGroup (groupRecords [recA2, recA1]) "A")
    ∧ ("A" ∈ (groupRecords [recA1, recA2]).map Prod.fst ↔
        "A" ∈ (groupRecords [recA2, recA1]).map Prod.fst) :=
  C8_amended_grouping_perm_invariant [recA1, recA2] [recA2, recA1] (by decide) "A"

/-- Claim C9 (confirmed): the registry update never removes a stored
district name, and when every incoming record's name is already stored
the update is a no-op — the stored list (hence its length) is exactly
unchanged. -/
theorem C9_registry_monotone :
    ∀ (districts : List String) (records : List Record) (d : String),
      (d ∈ districts → d ∈ record_seen districts records)
      ∧ ((∀ r ∈ records, districtRaw r ∈ districts) →
          record_seen districts records = districts) := by
  intro districts records d
  constructor
  · intro hd
    have hmem := foldl_regStep_mem records (districts, false) d hd
    unfold record_seen
    split
    · exact (sortByUpper_perm _).mem_iff.mpr hmem
    · exact hmem
  · intro h
    unfold record_seen
    rw [foldl_regStep_noop records districts false h]
    rfl

/-- Claim C9, witness: registering an already-stored name leaves the
list unchanged, and the stored name survives. -/
theorem C9_registry_monotone_witness :
    ("PURI" ∈ record_seen ["PURI"] [puriRec])
    ∧ record_seen ["PURI"] [puriRec] = ["PURI"] :=
  ⟨(C9_registry_monotone ["PURI"] [puriRec] "PURI").1 (by decide),
   (C9_registry_monotone ["PURI"] [puriRec] "PURI").2 (by decide)⟩

/-- Claim C10 (confirmed): rebuilding a stale entry when the fetch yields
zero records replaces the entry wholesale with an empty grouping,
`total_records = 0` and `fetched_at = now`, and that empty entry counts
as fresh for any instant less than the TTL later. -/
theorem C10_stale_rebuild_replaces_with_empty :
    ∀ (e : CacheEntry) (now : Int),
      is_fresh now e.meta.fetched_at = false →
      build_cache_for_state_year (some e) now []
        = ({ meta := { fetched_at := now, total_records := 0 }, by_district := [] }, true)
      ∧ (∀ t : Int, t - now < CACHE_TTL_SECONDS → is_fresh t now = true) := by
  intro e now h
  constructor
  · simp [build_cache_for_state_year, h, groupRecords]
  · intro t ht
    simp only [is_fresh, decide_eq_true_eq]
    exact ht

/-- Claim C10, witness: the stale CUTTACK entry is erased by a failed
refetch at time 100000, and the resulting empty entry is fresh shortly
after. -/
theorem C10_stale_rebuild_replaces_with_empty_witness :
    build_cache_for_state_year (some c3entry) 100000 []
      = ({ meta := { fetched_at := 100000, total_records := 0 }, by_district := [] }, true)
    ∧ is_fresh 100005 100000 = true :=
  ⟨(C10_stale_rebuild_replaces_with_empty c3entry 100000 (by decide)).1,
   (C10_stale_rebuild_replaces_with_empty c3entry 100000 (by decide)).2 100005 (by decide)⟩

end App
